import Mathlib

/-!
Verification of the SpeakSQL in-memory CSV query engine.

This file shallowly embeds the two query-engine variants of the repository:

* `SimpleQueryEngine` together with `DatabaseService.importCsvData` and
  `DatabaseService.detectColumnType` from `src/lib/database-service.ts`;
* `CSVQueryEngine` from the API route file (`src/unnamed/part_005`).

Strings are handled as `List Char`; every JavaScript regular expression used by
the source is hand-compiled into an executable scanning function with the same
semantics (leftmost match, greedy or lazy quantifiers, ordered alternation).
JavaScript `Map` objects are modelled as association lists that preserve
insertion order, with `set` replacing in place and appending fresh keys at the
end, exactly as `Map.prototype.set` does.
-/

/-! ## Character classes and string helpers -/

/-- The backtick character, written by code point to keep sources plain. -/
def backtickChar : Char := Char.ofNat 96

/-- The double-quote character. -/
def dquoteChar : Char := Char.ofNat 34

/-- The single-quote character. -/
def squoteChar : Char := Char.ofNat 39

/-- Model of the JavaScript regex class `\s` (and of the characters removed by
`String.prototype.trim`): space, tab, LF, CR, vertical tab, form feed.  The
rarely used Unicode space characters accepted by JavaScript are not modelled;
no value in this development contains them. -/
def isSpaceJS (c : Char) : Bool :=
  c == ' ' || c == '\t' || c == '\n' || c == '\r' ||
  c == Char.ofNat 11 || c == Char.ofNat 12

/-- Model of the JavaScript regex class `\w`: ASCII letters, digits and
underscore. -/
def isWordChar (c : Char) : Bool :=
  c.isAlphanum || c == '_'

/-- The three quote characters of the regex class used by the source for
optional quoting of identifiers. -/
def isQuoteChar (c : Char) : Bool :=
  c == backtickChar || c == dquoteChar || c == squoteChar

/-- JavaScript `String.prototype.trim` on a character list. -/
def jsTrimL (l : List Char) : List Char :=
  ((l.dropWhile isSpaceJS).reverse.dropWhile isSpaceJS).reverse

/-- JavaScript `String.prototype.trim`. -/
def jsTrimS (s : String) : String :=
  String.mk (jsTrimL s.data)

/-- JavaScript `String.prototype.toLowerCase`, restricted to ASCII case
mapping (`Char.toLower`); the tables and queries treated here are ASCII. -/
def jsToLowerL (l : List Char) : List Char :=
  l.map Char.toLower

/-- Lower-cased trimmed form of a query, as built by
`sql.trim().toLowerCase()` in both engines. -/
def lowerTrim (s : String) : List Char :=
  jsToLowerL (jsTrimL s.data)

/-- Case-sensitive literal match: if `pat` is a prefix of `l`, return the
rest of `l`. -/
def stripPrefixCS : List Char → List Char → Option (List Char)
  | [], l => some l
  | _ :: _, [] => none
  | p :: ps, c :: cs => if c == p then stripPrefixCS ps cs else none

/-- Case-insensitive literal match (the pattern is given lower-case), as
performed by a regex literal under the `i` flag. -/
def stripPrefixCI : List Char → List Char → Option (List Char)
  | [], l => some l
  | _ :: _, [] => none
  | p :: ps, c :: cs => if c.toLower == p then stripPrefixCI ps cs else none

/-- `true` when `pat` is a prefix of `l` (case-sensitive), modelling
`String.prototype.startsWith`. -/
def startsWithL (pat l : List Char) : Bool :=
  (stripPrefixCS pat l).isSome

/-- Model of `String.prototype.includes`: `sub` occurs contiguously in `l`. -/
def containsSeq : List Char → List Char → Bool
  | l, sub =>
    match l with
    | [] => (stripPrefixCS sub []).isSome
    | _ :: t => (stripPrefixCS sub l).isSome || containsSeq t sub

/-- The regex element `\s+` (greedy): require at least one whitespace
character, then consume the maximal run.  Greedy maximal munch is exact here
because every continuation in the source patterns starts with a
non-whitespace character. -/
def spaces1 (l : List Char) : Option (List Char) :=
  match l with
  | c :: cs => if isSpaceJS c then some (cs.dropWhile isSpaceJS) else none
  | [] => none

/-- Numeric value of a digit run, modelling `parseInt` on an all-digit
capture (the only way `parseInt` is reached in the source). -/
def natFromDigits (l : List Char) : Nat :=
  l.foldl (fun n c => n * 10 + (c.toNat - 48)) 0

/-! ## Generic regex scanning

`scanFor kw cont l` models `l.match(re)` for a regex that begins with the
literal keyword recognised by `kw`: JavaScript tries the whole pattern at
index 0, 1, 2, ... and stops at the first index where it succeeds. -/

/-- Leftmost-match scanner: at each start position try the keyword matcher
and then the continuation; on failure resume at the next position. -/
def scanFor (kwMatch : List Char → Option (List Char))
    (cont : List Char → Option α) : List Char → Option α
  | [] => none
  | l@(_ :: cs) =>
    match kwMatch l with
    | some rest =>
      match cont rest with
      | some v => some v
      | none => scanFor kwMatch cont cs
    | none => scanFor kwMatch cont cs

/-- Lazy `(.*?)` followed by a terminator: try the terminator at the current
point first (shortest capture), else consume one non-newline character and
grow.  `.` does not match a newline in a JavaScript regex without the `s`
flag. -/
def growStar (term : List Char → Bool) (acc : List Char) :
    List Char → Option (List Char)
  | [] => if term [] then some acc.reverse else none
  | rest@(c :: cs) =>
    if term rest then some acc.reverse
    else if c == '\n' then none
    else growStar term (c :: acc) cs

/-- Lazy `(.+?)` followed by a terminator: like `growStar` but at least one
character must be captured before the terminator is tried. -/
def growPlus (term : List Char → Bool) (acc : List Char) :
    List Char → Option (List Char)
  | [] => none
  | c :: cs =>
    if c == '\n' then none
    else if term cs then some (c :: acc).reverse
    else growPlus term (c :: acc) cs

/-- Backtracking of a greedy `\s+` that precedes a lazy group: try the
maximal run of `j` whitespace characters first, then give characters back one
at a time (down to a single whitespace character). -/
def tryOffsets (f : List Char → Option α) (rest : List Char) : Nat → Option α
  | 0 => none
  | j + 1 =>
    match f (rest.drop (j + 1)) with
    | some v => some v
    | none => tryOffsets f rest j

/-- Backtracking of a greedy `\s*`: like `tryOffsets` but the empty match is
also tried. -/
def tryOffsets0 (f : List Char → Option α) (rest : List Char) : Nat → Option α
  | 0 => f rest
  | j + 1 =>
    match f (rest.drop (j + 1)) with
    | some v => some v
    | none => tryOffsets0 f rest j

/-! ## The regexes of `SimpleQueryEngine` (src/lib/database-service.ts)

All four regexes are applied with `String.prototype.match` (first match). -/

/-- Continuation of `/from\s+([`"']?)(\w+)\1/i` after the literal `from`:
one or more whitespace characters, an optional quote character, a maximal
`\w+` run, and the matching close quote (the back-reference).  If an opening
quote is present but the quoted word does not close, the regex backtracks to
the empty quote alternative, which then fails because a quote character is
not a word character. -/
def fromContSQE (rest : List Char) : Option (List Char) :=
  match spaces1 rest with
  | none => none
  | some r1 =>
    match r1 with
    | [] => none
    | c :: cs =>
      if isQuoteChar c then
        let w := cs.takeWhile isWordChar
        let r2 := cs.dropWhile isWordChar
        if !w.isEmpty && (match r2 with | d :: _ => d == c | [] => false)
        then some w else none
      else
        let w := r1.takeWhile isWordChar
        if w.isEmpty then none else some w

/-- `trimmedSql.match(/from\s+([`"']?)(\w+)\1/i)`, returning capture 2 (the
table name). -/
def fromMatchL (l : List Char) : Option (List Char) :=
  scanFor (stripPrefixCI "from".data) fromContSQE l

/-- The terminator `\s+from` (under `/i`) of the lazy capture of the SELECT
clause regex. -/
def termFrom (rest : List Char) : Bool :=
  match spaces1 rest with
  | none => false
  | some r => (stripPrefixCI "from".data r).isSome

/-- Continuation of `/select\s+(.*?)\s+from/i` after the literal `select`:
greedy `\s+` (with backtracking), then the lazy capture up to `\s+from`. -/
def selectContSQE (rest : List Char) : Option (List Char) :=
  let n := (rest.takeWhile isSpaceJS).length
  if n == 0 then none else tryOffsets (growStar termFrom []) rest n

/-- `trimmedSql.match(/select\s+(.*?)\s+from/i)`, returning capture 1 (the
raw column list text). -/
def selectMatchL (l : List Char) : Option (List Char) :=
  scanFor (stripPrefixCI "select".data) selectContSQE l

/-- Continuation of `/limit\s+(\d+)/i` after the literal `limit`. -/
def limitCont (rest : List Char) : Option (List Char) :=
  match spaces1 rest with
  | none => none
  | some r =>
    let d := r.takeWhile Char.isDigit
    if d.isEmpty then none else some d

/-- `trimmedSql.match(/limit\s+(\d+)/i)` with `parseInt` applied to the
capture. -/
def limitMatchL (l : List Char) : Option Nat :=
  (scanFor (stripPrefixCI "limit".data) limitCont l).map natFromDigits

/-- Continuation of `/pragma\s+table_info\s*\(\s*[`"']?(\w+)[`"']?\s*\)/i`
after the literal `pragma`.  The two quote characters are independently
optional (no back-reference), and a failing optional quote backtracks to the
empty alternative, which then always fails because the following element
cannot match a quote character. -/
def pragmaCont (rest : List Char) : Option (List Char) :=
  match spaces1 rest with
  | none => none
  | some r1 =>
    match stripPrefixCI "table_info".data r1 with
    | none => none
    | some r2 =>
      match r2.dropWhile isSpaceJS with
      | '(' :: r4 =>
        let r5 := r4.dropWhile isSpaceJS
        let r6 := match r5 with
          | c :: cs => if isQuoteChar c then cs else r5
          | [] => r5
        let w := r6.takeWhile isWordChar
        if w.isEmpty then none
        else
          let r7 := r6.dropWhile isWordChar
          let r8 := match r7 with
            | c :: cs => if isQuoteChar c then cs else r7
            | [] => r7
          match r8.dropWhile isSpaceJS with
          | ')' :: _ => some w
          | _ => none
      | _ => none

/-- `sql.match(/pragma\s+table_info\s*\(\s*[`"']?(\w+)[`"']?\s*\)/i)`,
returning the captured table name. -/
def pragmaMatchL (l : List Char) : Option (List Char) :=
  scanFor (stripPrefixCI "pragma".data) pragmaCont l

/-! ## The regexes of `CSVQueryEngine` (the csv-query API route)

These regexes carry no `i` flag; the engine lower-cases the whole query
first, so the literal keywords still match case-insensitively overall. -/

/-- Continuation of `/from\s+(\w+)/` after the literal `from`. -/
def fromContCSV (rest : List Char) : Option (List Char) :=
  match spaces1 rest with
  | none => none
  | some r =>
    let w := r.takeWhile isWordChar
    if w.isEmpty then none else some w

/-- `normalizedQuery.match(/from\s+(\w+)/)`. -/
def csvFromMatchL (l : List Char) : Option (List Char) :=
  scanFor (stripPrefixCS "from".data) fromContCSV l

/-- The terminator `(?:\s+order\s+by|\s+limit|$)` of the WHERE clause
capture. -/
def termWhere (rest : List Char) : Bool :=
  (match spaces1 rest with
   | some r =>
     (match stripPrefixCS "order".data r with
      | some r2 =>
        (match spaces1 r2 with
         | some r3 => (stripPrefixCS "by".data r3).isSome
         | none => false)
      | none => false)
     || (stripPrefixCS "limit".data r).isSome
   | none => false)
  || rest.isEmpty

/-- Continuation of `/where\s+(.+?)(?:\s+order\s+by|\s+limit|$)/` after the
literal `where`. -/
def whereContCSV (rest : List Char) : Option (List Char) :=
  let n := (rest.takeWhile isSpaceJS).length
  if n == 0 then none else tryOffsets (growPlus termWhere []) rest n

/-- `normalizedQuery.match(/where\s+(.+?)(?:\s+order\s+by|\s+limit|$)/)`,
returning the raw WHERE clause text (capture 1). -/
def whereMatchL (l : List Char) : Option (List Char) :=
  scanFor (stripPrefixCS "where".data) whereContCSV l

/-- `normalizedQuery.match(/limit\s+(\d+)/)` for the CSV engine (the query is
already lower-case, so a case-sensitive keyword match is exact). -/
def csvLimitMatchL (l : List Char) : Option Nat :=
  (scanFor (stripPrefixCS "limit".data) limitCont l).map natFromDigits

/-! ## The WHERE condition regex of `CSVQueryEngine`

`whereClause.match(/(\w+)\s*(=|!=|>|<|>=|<=)\s*'?([^']+)'?/)`.

The alternation is tried left to right, so on input such as `a >= 6` the
single-character alternative `>` succeeds (the remainder `= 6` still matches
`\s*'?([^']+)'?`) before `>=` is ever tried; the two-character operators are
therefore unreachable. -/

/-- The comparison operator of a parsed WHERE condition.  All six source
operators are represented, matching the `switch` in `applyWhereClause`; the
condition regex can only ever produce the first four. -/
inductive CondOp
  | eq
  | ne
  | gt
  | lt
  | ge
  | le
deriving DecidableEq, Repr

/-- The regex tail `\s*'?([^']+)'?`: greedy `\s*` with backtracking, an
optional opening single quote, a maximal non-empty run of non-quote
characters (the captured value), and an optional closing quote. -/
def valueNoQuote (u : List Char) : Option (List Char) :=
  let v := u.takeWhile (fun d => !(d == squoteChar))
  if v.isEmpty then none else some v

/-- One attempt of `'?([^']+)'?` at a fixed point: the greedy optional quote
is consumed first; if the quoted body is empty the regex backtracks to the
unquoted alternative (which then fails as well, since the first character is
the quote). -/
def valueAttempt (u : List Char) : Option (List Char) :=
  match u with
  | c :: cs =>
    if c == squoteChar then
      match valueNoQuote cs with
      | some v => some v
      | none => valueNoQuote u
    else valueNoQuote u
  | [] => none

/-- The full value tail `\s*'?([^']+)'?` with `\s*` backtracking from its
maximal run down to the empty match. -/
def valueTail (r : List Char) : Option (List Char) :=
  tryOffsets0 valueAttempt r ((r.takeWhile isSpaceJS).length)

/-- Try one operator token of the alternation at the given point. -/
def tryOp (r : List Char) (tok : List Char) : Option (List Char) :=
  match stripPrefixCS tok r with
  | some r2 => valueTail r2
  | none => none

/-- The ordered alternation `(=|!=|>|<|>=|<=)` followed by the value tail,
in source order. -/
def tryOpsAll (r : List Char) : Option (CondOp × List Char) :=
  match tryOp r "=".data with
  | some v => some (CondOp.eq, v)
  | none =>
  match tryOp r "!=".data with
  | some v => some (CondOp.ne, v)
  | none =>
  match tryOp r ">".data with
  | some v => some (CondOp.gt, v)
  | none =>
  match tryOp r "<".data with
  | some v => some (CondOp.lt, v)
  | none =>
  match tryOp r ">=".data with
  | some v => some (CondOp.ge, v)
  | none =>
  match tryOp r "<=".data with
  | some v => some (CondOp.le, v)
  | none => none

/-- One attempt of the whole condition regex at a fixed start position:
maximal `\w+` (at least one character), maximal `\s*`, then the operator
alternation.  Shorter word or whitespace runs cannot help, because no
operator token is a word or whitespace character. -/
def condAt (l : List Char) : Option (List Char × CondOp × List Char) :=
  let w := l.takeWhile isWordChar
  if w.isEmpty then none
  else
    let r1 := (l.dropWhile isWordChar).dropWhile isSpaceJS
    match tryOpsAll r1 with
    | some (op, v) => some (w, op, v)
    | none => none

/-- Leftmost match of the condition regex over the WHERE clause text. -/
def conditionMatchL : List Char → Option (List Char × CondOp × List Char)
  | [] => none
  | l@(_ :: cs) =>
    match condAt l with
    | some m => some m
    | none => conditionMatchL cs

/-! ## JavaScript number parsing for the comparison operators

`parseFloat` parses the longest numeric prefix (after leading whitespace):
optional sign, decimal digits, optional fraction, optional exponent, and
yields `NaN` when no digit is found.  `NaN` is modelled as `none`; a parsed
number is modelled exactly as a scaled integer `n / 10 ^ d` (the pair
`(n, d)`), which represents every decimal literal without rounding.  The
special literal `Infinity` and IEEE double rounding are not modelled; every
numeric literal appearing in this development is small and exactly
representable, where the two semantics agree. -/

/-- `parseFloat`, returning `none` for `NaN` and `some (n, d)` for the exact
decimal value `n / 10 ^ d`. -/
def jsParseFloat (v : String) : Option (Int × Nat) :=
  let l := v.data.dropWhile isSpaceJS
  let signNeg := match l with
    | c :: _ => c == '-'
    | [] => false
  let l2 := match l with
    | c :: cs => if c == '-' || c == '+' then cs else l
    | [] => l
  let intPart := l2.takeWhile Char.isDigit
  let r := l2.drop intPart.length
  let fracPart := match r with
    | c :: cs => if c == '.' then cs.takeWhile Char.isDigit else []
    | [] => []
  if intPart.isEmpty && fracPart.isEmpty then none
  else
    let r2 := if r.head? == some '.' then (r.drop 1).drop fracPart.length else r
    let n0 : Int :=
      (natFromDigits intPart * 10 ^ fracPart.length + natFromDigits fracPart : Nat)
    let d0 : Nat := fracPart.length
    let scaled : Int × Nat := match r2 with
      | c :: cs =>
        if c == 'e' || c == 'E' then
          let eNeg := match cs with
            | d :: _ => d == '-'
            | [] => false
          let cs2 := match cs with
            | d :: ds => if d == '-' || d == '+' then ds else cs
            | [] => cs
          let eDigits := cs2.takeWhile Char.isDigit
          if eDigits.isEmpty then (n0, d0)
          else if eNeg then (n0, d0 + natFromDigits eDigits)
          else (n0 * 10 ^ natFromDigits eDigits, d0)
        else (n0, d0)
      | [] => (n0, d0)
    some (if signNeg then (-scaled.1, scaled.2) else scaled)

/-- `parseFloat a > parseFloat b` under JavaScript comparison: any comparison
with `NaN` is false; exact values are compared by cross-multiplication. -/
def nanGt (a b : Option (Int × Nat)) : Bool :=
  match a, b with
  | some x, some y => decide (y.1 * 10 ^ x.2 < x.1 * 10 ^ y.2)
  | _, _ => false

/-- `parseFloat a < parseFloat b` with `NaN` comparing false. -/
def nanLt (a b : Option (Int × Nat)) : Bool :=
  match a, b with
  | some x, some y => decide (x.1 * 10 ^ y.2 < y.1 * 10 ^ x.2)
  | _, _ => false

/-- `>=` with `NaN` comparing false. -/
def nanGe (a b : Option (Int × Nat)) : Bool :=
  match a, b with
  | some x, some y => decide (y.1 * 10 ^ x.2 ≤ x.1 * 10 ^ y.2)
  | _, _ => false

/-- `<=` with `NaN` comparing false. -/
def nanLe (a b : Option (Int × Nat)) : Bool :=
  match a, b with
  | some x, some y => decide (x.1 * 10 ^ y.2 ≤ y.1 * 10 ^ x.2)
  | _, _ => false

/-! ## Association-list model of JavaScript `Map` -/

/-- `Map.prototype.set`: replace the (unique) existing entry in place, or
append a new entry at the end, preserving insertion order. -/
def mapSet : List (String × α) → String → α → List (String × α)
  | [], k, v => [(k, v)]
  | (k0, v0) :: rest, k, v =>
    if k0 == k then (k, v) :: rest else (k0, v0) :: mapSet rest k v

/-- `Map.prototype.get`, as an `Option`. -/
def mapGet : List (String × α) → String → Option α
  | [], _ => none
  | (k0, v0) :: rest, k => if k0 == k then some v0 else mapGet rest k

/-- `Map.prototype.delete`. -/
def mapDelete : List (String × α) → String → List (String × α)
  | [], _ => []
  | (k0, v0) :: rest, k =>
    if k0 == k then rest else (k0, v0) :: mapDelete rest k

/-! ## Data model of `SimpleQueryEngine` -/

/-- A column descriptor of the in-memory `Table` interface. -/
structure Column where
  name : String
  type : String
  primaryKey : Bool
deriving DecidableEq, Repr

/-- The in-memory `Table` interface: name, ordered columns, ordered rows of
string cells. -/
structure Table where
  name : String
  columns : List Column
  rows : List (List String)
deriving DecidableEq, Repr

/-- The private `tables : Map<string, Table>` of `SimpleQueryEngine`. -/
def Store := List (String × Table)
deriving DecidableEq

/-- The empty engine state. -/
def emptyStore : Store := []

/-- The `{ columns, rows }` object returned by `executeQuery`.  The derived
fields `rowCount` and `executionTime` added by `DatabaseService` (row count
and wall-clock time) are not part of the engine result and are omitted. -/
structure QResult where
  columns : List String
  rows : List (List String)
deriving DecidableEq, Repr

/-- The errors thrown by `SimpleQueryEngine`, one constructor per `throw`
site; each constructor carries exactly the data interpolated into the thrown
message. -/
inductive QueryError
  | malformedFrom
  | tableNotFound (tableName : String)
  | malformedSelect
  | columnNotFound (columnName : String) (tableName : String)
  | malformedPragma
  | unsupported
deriving DecidableEq, Repr

/-! ## `SimpleQueryEngine` methods -/

/-- The table value built by `createTable`: the primary-key flag is set
exactly on a first column whose name contains `id` case-insensitively. -/
def mkCreatedTable (name : String) (columns : List (String × String))
    (data : List (List String)) : Table :=
  { name := name
    columns := columns.enum.map (fun ic =>
      { name := ic.2.1
        type := ic.2.2
        primaryKey := ic.1 == 0 && containsSeq (jsToLowerL ic.2.1.data) "id".data })
    rows := data }

/-- `createTable(name, columns, data)`. -/
def createTable (name : String) (columns : List (String × String))
    (data : List (List String)) (s : Store) : Store :=
  mapSet s name (mkCreatedTable name columns data)

/-- `dropTable(name)`. -/
def dropTable (name : String) (s : Store) : Store :=
  mapDelete s name

/-- `getTables()`: the keys of the map in insertion order. -/
def getTables (s : Store) : List String :=
  s.map Prod.fst

/-- String-level wrapper of the FROM regex, applied to `sql.trim()` as in
`executeSelect`. -/
def fromMatchS (sql : String) : Option String :=
  (fromMatchL (jsTrimL sql.data)).map String.mk

/-- String-level wrapper of the SELECT clause regex on `sql.trim()`. -/
def selectMatchS (sql : String) : Option String :=
  (selectMatchL (jsTrimL sql.data)).map String.mk

/-- String-level wrapper of the LIMIT regex on `sql.trim()`. -/
def limitMatchS (sql : String) : Option Nat :=
  limitMatchL (jsTrimL sql.data)

/-- String-level wrapper of the PRAGMA regex on the raw `sql`. -/
def pragmaMatchS (sql : String) : Option String :=
  (pragmaMatchL sql.data).map String.mk

/-- The column token list of a non-`*` SELECT clause:
`selectClause.split(",").map(col => col.trim().replace(/[`"']/g, ""))` —
split on every comma (keeping empty pieces), trim each piece, then delete
every quote or backtick character anywhere in the piece. -/
def splitCommaL : List Char → List (List Char)
  | [] => [[]]
  | c :: cs =>
    let rest := splitCommaL cs
    if c == ',' then [] :: rest
    else
      match rest with
      | piece :: more => (c :: piece) :: more
      | [] => [[c]]

/-- The requested column names of a SELECT clause text (already trimmed),
when it is not `*`. -/
def requestedColumns (selectClause : String) : List String :=
  (splitCommaL selectClause.data).map
    (fun tok => String.mk ((jsTrimL tok).filter (fun c => !isQuoteChar c)))

/-- The selected column names: `*` means all table columns in defined
order. -/
def selectedColumnsOf (selectClause : String) (table : Table) : List String :=
  if selectClause = "*" then table.columns.map Column.name
  else requestedColumns selectClause

/-- `rows.slice(0, limit)` when a LIMIT clause is present. -/
def applyLimit (lim : Option Nat) (rows : List (List String)) :
    List (List String) :=
  match lim with
  | none => rows
  | some n => rows.take n

/-- `row[index] || ""`: the cell at an index, with a missing position (short
row) or an empty cell both yielding the empty string. -/
def cellAt (row : List String) (i : Nat) : String :=
  row.getD i ""

/-- The `columnIndices` computation: `findIndex` by exact column name for
each requested column, throwing on the first name that resolves to `-1`. -/
def resolveColumns (tableName : String) (tcols : List Column) :
    List String → Except QueryError (List Nat)
  | [] => .ok []
  | c :: rest =>
    let i := tcols.findIdx (fun col => col.name == c)
    if i < tcols.length then
      match resolveColumns tableName tcols rest with
      | .error e => .error e
      | .ok idxs => .ok (i :: idxs)
    else .error (.columnNotFound c tableName)

/-- `executeSelect(sql)`: FROM extraction, table lookup, SELECT clause
extraction, column list, LIMIT, projection — in source order, with WHERE
deliberately unsupported (the source comment reads `WHERE clause support can
be added later — for now, return all rows`). -/
def executeSelect (s : Store) (sql : String) : Except QueryError QResult :=
  match fromMatchS sql with
  | none => .error .malformedFrom
  | some tableName =>
    match mapGet s tableName with
    | none => .error (.tableNotFound tableName)
    | some table =>
      match selectMatchS sql with
      | none => .error .malformedSelect
      | some cap =>
        let selectedColumns := selectedColumnsOf (jsTrimS cap) table
        let resultRows := applyLimit (limitMatchS sql) table.rows
        match resolveColumns tableName table.columns selectedColumns with
        | .error e => .error e
        | .ok idxs =>
          .ok { columns := selectedColumns
                rows := resultRows.map (fun row => idxs.map (cellAt row)) }

/-- `executePragma(sql)`: a missing table yields an empty result rather than
an error; otherwise one row per column with the fixed six fields. -/
def executePragma (s : Store) (sql : String) : Except QueryError QResult :=
  match pragmaMatchS sql with
  | none => .error .malformedPragma
  | some tableName =>
    match mapGet s tableName with
    | none => .ok { columns := [], rows := [] }
    | some table =>
      .ok { columns := ["cid", "name", "type", "notnull", "dflt_value", "pk"]
            rows := table.columns.enum.map (fun ic =>
              [Nat.repr ic.1, ic.2.name, ic.2.type, "0", "",
               if ic.2.primaryKey then "1" else "0"]) }

/-- `executeQuery(sql)` dispatch on the trimmed lower-cased statement. -/
def executeQuery (s : Store) (sql : String) : Except QueryError QResult :=
  let tl := lowerTrim sql
  if startsWithL "select".data tl then executeSelect s sql
  else if startsWithL "pragma".data tl then executePragma s sql
  else if containsSeq tl "show tables".data || containsSeq tl "sqlite_master".data then
    .ok { columns := ["name"], rows := (getTables s).map (fun n => [n]) }
  else .error .unsupported

/-- `executeQuery` in store-passing form: the source method never assigns to
`this.tables`, so each dispatch branch returns the store unchanged alongside
its result. -/
def executeQueryS (s : Store) (sql : String) :
    Store × Except QueryError QResult :=
  let tl := lowerTrim sql
  if startsWithL "select".data tl then (s, executeSelect s sql)
  else if startsWithL "pragma".data tl then (s, executePragma s sql)
  else if containsSeq tl "show tables".data || containsSeq tl "sqlite_master".data then
    (s, .ok { columns := ["name"], rows := (getTables s).map (fun n => [n]) })
  else (s, .error .unsupported)

/-! ## `DatabaseService.detectColumnType` and `importCsvData` -/

/-- The anchored regex `/^\d+$/`: a non-empty run of digits. -/
def fullDigits (l : List Char) : Bool :=
  !l.isEmpty && l.all Char.isDigit

/-- The anchored regex `/^\d*\.?\d+$/`: either a non-empty digit run, or
digits, a dot, then a non-empty digit run. -/
def realNumPattern (l : List Char) : Bool :=
  let d1 := l.takeWhile Char.isDigit
  match l.drop d1.length with
  | [] => !d1.isEmpty
  | c :: r2 => c == '.' && !r2.isEmpty && r2.all Char.isDigit

/-- Number of days in a month of the proleptic Gregorian calendar. -/
def daysInMonth (year month : Nat) : Nat :=
  if month == 2 then
    if year % 4 == 0 && (year % 100 != 0 || year % 400 == 0) then 29 else 28
  else if month == 4 || month == 6 || month == 9 || month == 11 then 30
  else 31

/-- Models the JavaScript builtin `Date.parse` (as a recognizer:
`!isNaN(Date.parse(v))`), restricted to the ISO `YYYY-MM-DD` calendar-date
format with a valid month and day, surrounded by optional whitespace.
JavaScript additionally accepts a number of other implementation-defined
date formats; no value in this development uses them. -/
def jsDateParseOk (v : String) : Bool :=
  match jsTrimL v.data with
  | [y1, y2, y3, y4, h1, m1, m2, h2, d1, d2] =>
    y1.isDigit && y2.isDigit && y3.isDigit && y4.isDigit &&
    h1 == '-' && h2 == '-' &&
    m1.isDigit && m2.isDigit && d1.isDigit && d2.isDigit &&
    (let y := natFromDigits [y1, y2, y3, y4]
     let m := natFromDigits [m1, m2]
     let d := natFromDigits [d1, d2]
     1 ≤ m && m ≤ 12 && 1 ≤ d && d ≤ daysInMonth y m)
  | _ => false

/-- The non-empty sample inspected by `detectColumnType`: values that are
truthy and not whitespace-only, limited to the first 100. -/
def nonEmptySample (values : List String) : List String :=
  (values.filter (fun v => !(jsTrimL v.data).isEmpty)).take 100

/-- `DatabaseService.detectColumnType(values)`. -/
def detectColumnType (values : List String) : String :=
  let nonEmptyValues := nonEmptySample values
  if nonEmptyValues.isEmpty then "TEXT"
  else if nonEmptyValues.all (fun v => fullDigits (jsTrimL v.data)) then "INTEGER"
  else if nonEmptyValues.all (fun v => realNumPattern (jsTrimL v.data)) then "REAL"
  else if nonEmptyValues.all (fun v => jsDateParseOk v) then "DATETIME"
  else "TEXT"

/-- The table registered by `importCsvData` for a non-empty CSV: trimmed
header names, inferred column types (each column read positionally at the
first index of its header text), and the data rows as given. -/
def importedTable (tableName : String) (headers : List String)
    (rows : List (List String)) : Table :=
  mkCreatedTable tableName
    (headers.map (fun header =>
      (jsTrimS header,
       detectColumnType (rows.map (fun row =>
         cellAt row (headers.findIdx (fun h => h == header)))))))
    rows

/-- `DatabaseService.importCsvData(fileName, tableName, csvData)`, restricted
to its effect on the query-engine table store: an empty `csvData` returns at
once; otherwise the table is dropped and re-created from the header row and
the data rows.  The connection bookkeeping (`ensureCsvConnection`) touches
only the separate connections map, never the table store, and is not
modelled.  The `fileName` argument is unused by the source as well. -/
def importCsvData (fileName tableName : String)
    (csvData : List (List String)) (s : Store) : Store :=
  match csvData with
  | [] => s
  | headers :: rows =>
    mapSet (mapDelete s tableName) tableName (importedTable tableName headers rows)

/-! ## Data model and methods of `CSVQueryEngine` (csv-query API route) -/

/-- A column descriptor of the `CSVTable` interface (no primary-key flag). -/
structure CsvColumn where
  name : String
  type : String
deriving DecidableEq, Repr

/-- The `CSVTable` interface: the row payload field is named `data`. -/
structure CSVTable where
  name : String
  columns : List CsvColumn
  data : List (List String)
deriving DecidableEq, Repr

/-- The private `tables : Map<string, CSVTable>` of `CSVQueryEngine`. -/
def CsvStore := List (String × CSVTable)
deriving DecidableEq

/-- The errors thrown by `CSVQueryEngine`, one constructor per `throw`
site. -/
inductive CsvError
  | unsupportedStatement
  | missingFromClause
  | tableNotFound (tableName : String)
  | columnNotFound (columnName : String)
deriving DecidableEq, Repr

/-- `loadTable(table)`: keyed by the lower-cased table name. -/
def loadTable (s : CsvStore) (table : CSVTable) : CsvStore :=
  mapSet s (String.mk (jsToLowerL table.name.data)) table

/-- The FROM regex of the CSV engine on the lower-cased query. -/
def csvFromMatchS (query : String) : Option String :=
  (csvFromMatchL (jsToLowerL query.data)).map String.mk

/-- The WHERE clause regex of the CSV engine on the lower-cased query. -/
def whereMatchS (query : String) : Option String :=
  (whereMatchL (jsToLowerL query.data)).map String.mk

/-- The LIMIT regex of the CSV engine on the lower-cased query. -/
def csvLimitMatchS (query : String) : Option Nat :=
  csvLimitMatchL (jsToLowerL query.data)

/-- The condition regex applied to the trimmed WHERE clause text. -/
def conditionMatchS (whereClause : String) :
    Option (String × CondOp × String) :=
  (conditionMatchL whereClause.data).map
    (fun m => (String.mk m.1, m.2.1, String.mk m.2.2))

/-- The `switch (operator)` of `applyWhereClause` on one cell: string
equality is case-insensitive, the ordering operators compare `parseFloat` of
both sides with `NaN` never matching.  The `ge` and `le` branches mirror the
source cases `>=` and `<=`, which the condition regex never produces. -/
def evalCond (op : CondOp) (cellValue value : String) : Bool :=
  match op with
  | .eq => String.mk (jsToLowerL cellValue.data) == String.mk (jsToLowerL value.data)
  | .ne => !(String.mk (jsToLowerL cellValue.data) == String.mk (jsToLowerL value.data))
  | .gt => nanGt (jsParseFloat cellValue) (jsParseFloat value)
  | .lt => nanLt (jsParseFloat cellValue) (jsParseFloat value)
  | .ge => nanGe (jsParseFloat cellValue) (jsParseFloat value)
  | .le => nanLe (jsParseFloat cellValue) (jsParseFloat value)

/-- `applyWhereClause(rows, columns, whereClause)`: an unparseable condition
returns the rows unchanged; a parsed condition resolves its column
case-insensitively (throwing when absent) and filters the rows. -/
def applyWhereClause (rows : List (List String)) (columns : List String)
    (whereClause : String) : Except CsvError (List (List String)) :=
  match conditionMatchS whereClause with
  | none => .ok rows
  | some (columnName, op, value) =>
    let columnIndex := columns.findIdx (fun col =>
      String.mk (jsToLowerL col.data) == String.mk (jsToLowerL columnName.data))
    if columnIndex < columns.length then
      .ok (rows.filter (fun row => evalCond op (cellAt row columnIndex) value))
    else .error (.columnNotFound columnName)

/-- `CSVQueryEngine.executeSelect(query)`: always returns every column of
the table (the requested column list is ignored — the source comment reads
`For now, return all data`), with optional WHERE filtering and LIMIT. -/
def csvExecuteSelect (s : CsvStore) (query : String) :
    Except CsvError QResult :=
  match csvFromMatchS query with
  | none => .error .missingFromClause
  | some tableName =>
    match mapGet s tableName with
    | none => .error (.tableNotFound tableName)
    | some table =>
      let columns := table.columns.map CsvColumn.name
      let afterWhere := match whereMatchS query with
        | none => Except.ok table.data
        | some wc => applyWhereClause table.data columns (jsTrimS wc)
      match afterWhere with
      | .error e => .error e
      | .ok rows2 =>
        .ok { columns := columns
              rows := applyLimit (csvLimitMatchS query) rows2 }

/-- `CSVQueryEngine.executeQuery(query)`. -/
def csvExecuteQuery (s : CsvStore) (query : String) :
    Except CsvError QResult :=
  if startsWithL "select".data (lowerTrim query) then csvExecuteSelect s query
  else .error .unsupportedStatement

/-! ## Dispatch predicates -/

/-- The trimmed lower-cased statement starts with `select`. -/
def startsSelect (sql : String) : Bool :=
  startsWithL "select".data (lowerTrim sql)

/-- The statement dispatches to `executePragma`: it does not start with
`select` but starts with `pragma`. -/
def dispatchesToPragma (sql : String) : Bool :=
  !startsWithL "select".data (lowerTrim sql) &&
    startsWithL "pragma".data (lowerTrim sql)

/-- The first requested column (in request order) that does not resolve
against the table columns by exact name equality. -/
def firstMissingColumn (tcols : List Column) (cols : List String) :
    Option String :=
  cols.find? (fun c => !(tcols.any (fun col => col.name == c)))

deriving instance DecidableEq for Except

/-! ## Concrete instances used below -/

/-- A one-column CSV-engine table with numeric cells `5` and `7`. -/
def csvNumTable : CSVTable :=
  { name := "t", columns := [{ name := "a", type := "INTEGER" }],
    data := [["5"], ["7"]] }

/-- A CSV-engine store holding `csvNumTable`. -/
def csvNumStore : CsvStore := loadTable [] csvNumTable

/-- A two-column CSV-engine table. -/
def csvPairTable : CSVTable :=
  { name := "t",
    columns := [{ name := "id", type := "INTEGER" },
                { name := "name", type := "TEXT" }],
    data := [["1", "a"]] }

/-- A CSV-engine store holding `csvPairTable`. -/
def csvPairStore : CsvStore := loadTable [] csvPairTable

/-- A one-column simple-engine table with numeric cells `5` and `7`. -/
def sqeNumTable : Table :=
  { name := "t", columns := [{ name := "a", type := "INTEGER", primaryKey := false }],
    rows := [["5"], ["7"]] }

/-- A simple-engine store holding `sqeNumTable`. -/
def sqeNumStore : Store := mapSet emptyStore "t" sqeNumTable

/-- A two-column simple-engine table whose second row is short. -/
def sqePairTable : Table :=
  { name := "t",
    columns := [{ name := "id", type := "INTEGER", primaryKey := true },
                { name := "name", type := "TEXT", primaryKey := false }],
    rows := [["1", "a"], ["2"]] }

/-- A simple-engine store holding `sqePairTable`. -/
def sqePairStore : Store := mapSet emptyStore "t" sqePairTable

/-- A simple-engine table without a column named `nope`. -/
def sqeNameTable : Table :=
  { name := "t", columns := [{ name := "name", type := "TEXT", primaryKey := false }],
    rows := [] }

/-- A simple-engine store holding `sqeNameTable`. -/
def sqeNameStore : Store := mapSet emptyStore "t" sqeNameTable

/-! ## Helper lemmas -/

theorem mapGet_mapSet (s : List (String × α)) (k : String) (v : α) :
    mapGet (mapSet s k v) k = some v := by
  induction s with
  | nil => simp [mapSet, mapGet]
  | cons p rest ih =>
    obtain ⟨k0, v0⟩ := p
    by_cases h : k0 == k
    · simp [mapSet, h, mapGet]
    · simp [mapSet, h, mapGet, ih]

theorem mem_keys_mapSet (s : List (String × α)) (k : String) (v : α) :
    k ∈ (mapSet s k v).map Prod.fst := by
  induction s with
  | nil => simp [mapSet]
  | cons p rest ih =>
    obtain ⟨k0, v0⟩ := p
    by_cases h : k0 == k
    · simp [mapSet, h]
    · simp only [mapSet, h]
      simpa using Or.inr ih

theorem executeQuery_eq_select (s : Store) (sql : String)
    (h : startsSelect sql = true) :
    executeQuery s sql = executeSelect s sql := by
  unfold executeQuery
  unfold startsSelect at h
  simp [h]

theorem executeQuery_eq_pragma (s : Store) (sql : String)
    (h : dispatchesToPragma sql = true) :
    executeQuery s sql = executePragma s sql := by
  unfold dispatchesToPragma at h
  rw [Bool.and_eq_true, Bool.not_eq_true'] at h
  unfold executeQuery
  simp [h.1, h.2]

theorem findIdx_name_getElem (tcols : List Column)
    (h : (tcols.map Column.name).Nodup) (i : Nat) (hi : i < tcols.length) :
    tcols.findIdx (fun col => col.name == tcols[i].name) = i := by
  induction tcols generalizing i with
  | nil => exact absurd hi (by simp)
  | cons a rest ih =>
    rw [List.map_cons, List.nodup_cons] at h
    cases i with
    | zero => simp [List.findIdx_cons]
    | succ j =>
      have hj : j < rest.length := by simpa using hi
      have hmem : rest[j].name ∈ rest.map Column.name :=
        List.mem_map_of_mem Column.name (rest.getElem_mem hj)
      have hne : (a.name == rest[j].name) = false := by
        rw [beq_eq_false_iff_ne]
        intro he
        exact h.1 (he ▸ hmem)
      have : (a :: rest)[j + 1] = rest[j] := by simp
      rw [this, List.findIdx_cons, hne]
      simp [ih h.2 j hj]

theorem resolveColumns_all_found (tn : String) (tcols : List Column) :
    ∀ cols : List String,
      (∀ c ∈ cols, tcols.findIdx (fun col => col.name == c) < tcols.length) →
      resolveColumns tn tcols cols =
        .ok (cols.map (fun c => tcols.findIdx (fun col => col.name == c))) := by
  intro cols
  induction cols with
  | nil => intro _; rfl
  | cons c rest ih =>
    intro h
    have hc := h c (List.mem_cons_self c rest)
    have hrest := ih (fun d hd => h d (List.mem_cons_of_mem c hd))
    simp only [resolveColumns, hc, if_true, hrest, List.map_cons]

theorem resolveColumns_ok_inv (tn : String) (tcols : List Column) :
    ∀ (cols : List String) (idxs : List Nat),
      resolveColumns tn tcols cols = .ok idxs →
      idxs = cols.map (fun c => tcols.findIdx (fun col => col.name == c)) := by
  intro cols
  induction cols with
  | nil =>
    intro idxs h
    simp only [resolveColumns] at h
    injection h with h2
    simp [h2.symm]
  | cons c rest ih =>
    intro idxs h
    by_cases hc : tcols.findIdx (fun col => col.name == c) < tcols.length
    · simp only [resolveColumns, hc, if_true] at h
      cases hrec : resolveColumns tn tcols rest with
      | error e => rw [hrec] at h; exact absurd h (by simp)
      | ok js =>
        rw [hrec] at h
        have := ih js hrec
        cases h
        simp [this]
    · simp only [resolveColumns, hc, if_false] at h
      exact absurd h (by simp)

theorem resolveColumns_error_of_missing (tn : String) (tcols : List Column) :
    ∀ (cols : List String) (c : String),
      firstMissingColumn tcols cols = some c →
      resolveColumns tn tcols cols = .error (.columnNotFound c tn) := by
  intro cols
  induction cols with
  | nil => intro c h; simp [firstMissingColumn] at h
  | cons c0 rest ih =>
    intro c h
    by_cases h0 : tcols.any (fun col => col.name == c0)
    · have hfind : tcols.findIdx (fun col => col.name == c0) < tcols.length := by
        rw [List.findIdx_lt_length]
        simpa using h0
      rw [firstMissingColumn, List.find?_cons_of_neg _ (by simp [h0])] at h
      have hrest := ih c (by simpa [firstMissingColumn] using h)
      simp only [resolveColumns, hfind, if_true, hrest]
    · rw [firstMissingColumn, List.find?_cons_of_pos _ (by simp [h0])] at h
      cases h
      have hfind : ¬ tcols.findIdx (fun col => col.name == c0) < tcols.length := by
        rw [List.findIdx_lt_length]
        simpa using h0
      simp [resolveColumns, hfind]

theorem map_findIdx_self (tcols : List Column)
    (h : (tcols.map Column.name).Nodup) :
    (tcols.map Column.name).map
        (fun c => tcols.findIdx (fun col => col.name == c)) =
      List.range tcols.length := by
  apply List.ext_getElem
  · simp
  · intro i h1 h2
    have hi : i < tcols.length := by simpa using h1
    simp only [List.getElem_map, List.getElem_range]
    exact findIdx_name_getElem tcols h i hi

theorem map_cellAt_range (row : List String) :
    (List.range row.length).map (cellAt row) = row := by
  induction row with
  | nil => rfl
  | cons a rest ih =>
    rw [List.length_cons, List.range_succ_eq_map, List.map_cons, List.map_map]
    have : (cellAt (a :: rest)) ∘ Nat.succ = cellAt rest := by
      funext i
      simp [cellAt]
    simp only [this, ih]
    rfl

theorem enumFrom_map_name (columns : List (String × String)) : ∀ n : Nat,
    ((List.enumFrom n columns).map (fun ic =>
        ({ name := ic.2.1, type := ic.2.2,
           primaryKey := ic.1 == 0 &&
             containsSeq (jsToLowerL ic.2.1.data) "id".data } : Column))).map
        Column.name
      = columns.map Prod.fst := by
  induction columns with
  | nil => intro n; rfl
  | cons c rest ih =>
    intro n
    simp only [List.enumFrom_cons, List.map_cons, ih (n + 1)]

theorem mkCreatedTable_names (name : String) (columns : List (String × String))
    (data : List (List String)) :
    (mkCreatedTable name columns data).columns.map Column.name =
      columns.map Prod.fst := by
  unfold mkCreatedTable List.enum
  exact enumFrom_map_name columns 0

theorem mkCreatedTable_length (name : String) (columns : List (String × String))
    (data : List (List String)) :
    (mkCreatedTable name columns data).columns.length = columns.length := by
  have := congrArg List.length (mkCreatedTable_names name columns data)
  simpa using this

theorem executeSelect_missing_table (s : Store) (sql tn : String)
    (hf : fromMatchS sql = some tn) (ht : mapGet s tn = none) :
    executeSelect s sql = .error (.tableNotFound tn) := by
  unfold executeSelect
  simp only [hf, ht]

theorem executeQuery_missing_table (s : Store) (sql tn : String)
    (hq : startsSelect sql = true) (hf : fromMatchS sql = some tn)
    (ht : mapGet s tn = none) :
    executeQuery s sql = .error (.tableNotFound tn) := by
  rw [executeQuery_eq_select s sql hq]
  exact executeSelect_missing_table s sql tn hf ht

theorem nonEmptySample_idem (values : List String) :
    nonEmptySample (nonEmptySample values) = nonEmptySample values := by
  unfold nonEmptySample
  have hall : ∀ v ∈ (values.filter
      (fun v => !(jsTrimL v.data).isEmpty)).take 100,
      (!(jsTrimL v.data).isEmpty) = true := by
    intro v hv
    have hv2 : v ∈ values.filter (fun v => !(jsTrimL v.data).isEmpty) :=
      List.mem_of_mem_take hv
    exact (List.mem_filter.mp hv2).2
  rw [List.filter_eq_self.mpr hall, List.take_take]
  simp

/-! ## The claims -/

/-- C1: the claim states that a WHERE clause `<column> <op> <literal>` with
`op` among `=`, `!=`, `>`, `<`, `>=`, `<=` filters the rows accordingly
(ordering operators comparing both sides as floats, non-numeric cells not
matching).  The code does not satisfy this for `>=` and `<=`: the ordered
regex alternation `(=|!=|>|<|>=|<=)` matches `>` before `>=` is ever tried,
so `a >= 6` parses as operator `>` with literal `= 6`; `parseFloat` of that
literal is `NaN` and no row matches, even though the `switch` statement of
`applyWhereClause` carries (unreachable) cases implementing `>=` and `<=`
exactly as claimed.  The `SimpleQueryEngine` variant ignores WHERE clauses
altogether and returns every row.  This theorem evaluates the code at the
failing input `SELECT * FROM t WHERE a >= 6` against rows `5` and `7`: the
claim demands exactly the row `7`; the CSV engine returns no rows (while the
same query with `>` behaves as claimed), and the simple engine returns both
rows. -/
theorem claim_C1_theorem :
    conditionMatchS "a >= 6" = some ("a", CondOp.gt, "= 6") ∧
    csvExecuteQuery csvNumStore "select * from t where a >= 6" =
      .ok { columns := ["a"], rows := [] } ∧
    csvExecuteQuery csvNumStore "select * from t where a > 6" =
      .ok { columns := ["a"], rows := [["7"]] } ∧
    executeQuery sqeNumStore "SELECT * FROM t WHERE a >= 6" =
      .ok { columns := ["a"], rows := [["5"], ["7"]] } :=
  ⟨by decide, by decide, by decide, by decide⟩

/-- C2 counterexample: the claim states that every successful SELECT labels
its result with exactly the requested column names and projects the rows
accordingly.  In the `CSVQueryEngine` variant the requested column list is
ignored: `select name from t` against a two-column table succeeds and
returns both columns and the unprojected rows. -/
theorem claim_C2_counterexample :
    csvExecuteQuery csvPairStore "select name from t" =
      .ok { columns := ["id", "name"], rows := [["1", "a"]] } ∧
    ¬ (["id", "name"] = ["name"]) :=
  ⟨by decide, by decide⟩

/-- C2 (amended): in the `SimpleQueryEngine` variant, every successful
SELECT labels its result with exactly the requested column names — the text
between SELECT and FROM split on commas, each token trimmed with every
quote/backtick character removed, `*` meaning all table columns in defined
order — and each result row holds, in request order, the cell of the stored
row at the (exact-match) index of the requested column, with positions
missing because the stored row is shorter reported as the empty string.
(The `CSVQueryEngine` variant ignores the requested column list entirely.) -/
theorem claim_C2_theorem (s : Store) (sql tn cap : String) (table : Table)
    (res : QResult)
    (hq : startsSelect sql = true)
    (hf : fromMatchS sql = some tn)
    (ht : mapGet s tn = some table)
    (hs : selectMatchS sql = some cap)
    (hok : executeQuery s sql = .ok res) :
    res.columns = (if jsTrimS cap = "*" then table.columns.map Column.name
                   else requestedColumns (jsTrimS cap)) ∧
    res.rows = (applyLimit (limitMatchS sql) table.rows).map
      (fun row => res.columns.map
        (fun c => cellAt row (table.columns.findIdx (fun col => col.name == c)))) := by
  rw [executeQuery_eq_select s sql hq] at hok
  unfold executeSelect at hok
  simp only [hf, ht, hs] at hok
  cases hres : resolveColumns tn table.columns
      (selectedColumnsOf (jsTrimS cap) table) with
  | error e => rw [hres] at hok; exact absurd hok (by simp)
  | ok idxs =>
    rw [hres] at hok
    injection hok with hok2
    subst hok2
    have hidx := resolveColumns_ok_inv tn table.columns _ idxs hres
    refine ⟨rfl, ?_⟩
    simp only [hidx, List.map_map]
    rfl

/-- C2 witness: the amended claim applied to `SELECT name, id FROM t` on a
table whose second stored row is short. -/
theorem claim_C2_witness :
    (QResult.mk ["name", "id"] [["a", "1"], ["", "2"]]).columns =
      (if jsTrimS "name, id" = "*" then sqePairTable.columns.map Column.name
       else requestedColumns (jsTrimS "name, id")) ∧
    (QResult.mk ["name", "id"] [["a", "1"], ["", "2"]]).rows =
      (applyLimit (limitMatchS "SELECT name, id FROM t") sqePairTable.rows).map
        (fun row => (QResult.mk ["name", "id"] [["a", "1"], ["", "2"]]).columns.map
          (fun c => cellAt row
            (sqePairTable.columns.findIdx (fun col => col.name == c)))) :=
  claim_C2_theorem sqePairStore "SELECT name, id FROM t" "t" "name, id"
    sqePairTable (QResult.mk ["name", "id"] [["a", "1"], ["", "2"]])
    (by decide) (by decide) (by decide) (by decide) (by decide)

/-- C3: column type inference discards empty/whitespace-only values, inspects
at most the first 100 remaining values (the result depends only on that
sample), returns TEXT on an empty sample, tests the sample in the fixed
short-circuiting order INTEGER, REAL, DATETIME, TEXT (so an all-integer
sample is never classified REAL), satisfies the five quoted examples, and is
total with no error condition (the result is always one of the four tags). -/
theorem claim_C3_theorem :
    detectColumnType ["1", "2", "3"] = "INTEGER" ∧
    detectColumnType ["1.5", "2"] = "REAL" ∧
    detectColumnType ["2024-01-01", "2024-02-01"] = "DATETIME" ∧
    detectColumnType ["abc", "2"] = "TEXT" ∧
    detectColumnType ["", "  "] = "TEXT" ∧
    (∀ values : List String,
      detectColumnType values = detectColumnType (nonEmptySample values)) ∧
    (∀ values : List String, nonEmptySample values = [] →
      detectColumnType values = "TEXT") ∧
    (∀ values : List String, nonEmptySample values ≠ [] →
      (∀ v ∈ nonEmptySample values, fullDigits (jsTrimL v.data) = true) →
      detectColumnType values = "INTEGER") ∧
    (∀ values : List String,
      detectColumnType values = "INTEGER" ∨ detectColumnType values = "REAL" ∨
      detectColumnType values = "DATETIME" ∨ detectColumnType values = "TEXT") := by
  refine ⟨by decide, by decide, by decide, by decide, by decide, ?_, ?_, ?_, ?_⟩
  · intro values
    unfold detectColumnType
    rw [nonEmptySample_idem]
  · intro values h
    unfold detectColumnType
    simp [h]
  · intro values hne hall
    unfold detectColumnType
    rw [if_neg (by simpa [List.isEmpty_iff] using hne),
      if_pos (List.all_eq_true.mpr hall)]
  · intro values
    unfold detectColumnType
    by_cases h1 : (nonEmptySample values).isEmpty
    · simp [h1]
    · by_cases h2 : ((nonEmptySample values).all fun v => fullDigits (jsTrimL v.data))
      · simp [h1, h2]
      · by_cases h3 : ((nonEmptySample values).all fun v => realNumPattern (jsTrimL v.data))
        · simp [h1, h2, h3]
        · by_cases h4 : ((nonEmptySample values).all fun v => jsDateParseOk v)
          · simp [h1, h2, h3, h4]
          · simp [h1, h2, h3, h4]

/-- C3 witness: the sampling and priority conjuncts applied at concrete
inputs — a column of one hundred `1` cells followed by a non-numeric cell is
still INTEGER (only the first 100 non-empty values are inspected), and a
whitespace-only column is TEXT. -/
theorem claim_C3_witness :
    detectColumnType (List.replicate 100 "1" ++ ["abc"]) = "INTEGER" ∧
    detectColumnType ["  ", ""] = "TEXT" :=
  ⟨claim_C3_theorem.2.2.2.2.2.2.2.1 _ (by decide) (by decide),
   claim_C3_theorem.2.2.2.2.2.2.1 _ (by decide)⟩

/-- C4 counterexample: the claim generalizes the round-trip to every
non-empty import, asserting that `SELECT *` returns the imported data rows
unchanged.  A data row shorter than the header row is returned padded with
an empty string, not unchanged. -/
theorem claim_C4_counterexample :
    executeQuery (importCsvData "data.csv" "t" [["id", "name"], ["1"]] emptyStore)
        "SELECT * FROM t" = .ok { columns := ["id", "name"], rows := [["1", ""]] } ∧
    ¬ ([["1", ""]] = [["1"]]) :=
  ⟨by decide, by decide⟩

/-- C4 (amended): importing a CSV whose trimmed header names are pairwise
distinct and whose every data row has exactly one cell per header, and then
executing a statement that parses as `SELECT * FROM <that table>` without a
LIMIT clause, returns exactly the trimmed header names as columns and the
imported data rows unchanged, in insertion order.  The concrete round-trip
of the claim (headers `id`, `name` with rows `1 a` and `2 b`) is an instance
(see the witness).  Rows shorter or longer than the header row are
normalized by the projection, and duplicate header names project the first
matching column, so those imports are excluded. -/
theorem claim_C4_theorem (s : Store) (fileName tableName sql cap : String)
    (headers : List String) (dataRows : List (List String))
    (hq : startsSelect sql = true)
    (hf : fromMatchS sql = some tableName)
    (hs : selectMatchS sql = some cap)
    (hstar : jsTrimS cap = "*")
    (hlim : limitMatchS sql = none)
    (hnodup : (headers.map jsTrimS).Nodup)
    (hlen : ∀ r ∈ dataRows, r.length = headers.length) :
    executeQuery (importCsvData fileName tableName (headers :: dataRows) s) sql
      = .ok { columns := headers.map jsTrimS, rows := dataRows } := by
  rw [executeQuery_eq_select _ sql hq]
  unfold executeSelect
  have hget : mapGet (importCsvData fileName tableName (headers :: dataRows) s)
      tableName = some (importedTable tableName headers dataRows) := by
    unfold importCsvData
    exact mapGet_mapSet _ _ _
  rw [hf]
  simp only [hget, hs]
  have hnames : (importedTable tableName headers dataRows).columns.map Column.name
      = headers.map jsTrimS := by
    unfold importedTable
    rw [mkCreatedTable_names, List.map_map]
    rfl
  have hnodup2 : ((importedTable tableName headers dataRows).columns.map
      Column.name).Nodup := by
    rw [hnames]; exact hnodup
  have hlencols : (importedTable tableName headers dataRows).columns.length
      = headers.length := by
    have := congrArg List.length hnames
    simpa using this
  have hfound : ∀ c ∈ (importedTable tableName headers dataRows).columns.map
      Column.name,
      (importedTable tableName headers dataRows).columns.findIdx
        (fun col => col.name == c) <
        (importedTable tableName headers dataRows).columns.length := by
    intro c hc
    rw [List.findIdx_lt_length]
    obtain ⟨col, hcol, hname⟩ := List.mem_map.mp hc
    exact ⟨col, hcol, by simp [hname]⟩
  have hres := resolveColumns_all_found tableName
    (importedTable tableName headers dataRows).columns
    ((importedTable tableName headers dataRows).columns.map Column.name) hfound
  rw [map_findIdx_self _ hnodup2] at hres
  have hsel : selectedColumnsOf (jsTrimS cap)
      (importedTable tableName headers dataRows)
      = (importedTable tableName headers dataRows).columns.map Column.name := by
    rw [hstar]
    unfold selectedColumnsOf
    rw [if_pos rfl]
  rw [hsel, hres, hnames]
  have hrowsval : (importedTable tableName headers dataRows).rows = dataRows := rfl
  rw [hlim]
  simp only [applyLimit, hrowsval]
  have hrows : dataRows.map (fun row =>
      (List.range (importedTable tableName headers dataRows).columns.length).map
        (cellAt row)) = dataRows := by
    have hpoint : ∀ r ∈ dataRows,
        (List.range (importedTable tableName headers dataRows).columns.length).map
          (cellAt r) = id r := by
      intro r hr
      rw [hlencols, ← hlen r hr]
      exact map_cellAt_range r
    rw [List.map_congr_left hpoint, List.map_id]
  rw [hrows]

/-- C4 witness: the round-trip of the claim — importing headers `id`, `name`
with rows `1 a` and `2 b` and selecting `*` returns exactly those columns
and rows. -/
theorem claim_C4_witness :
    executeQuery (importCsvData "data.csv" "t" [["id", "name"], ["1", "a"], ["2", "b"]]
        emptyStore) "SELECT * FROM t"
      = .ok { columns := ["id", "name"], rows := [["1", "a"], ["2", "b"]] } := by
  have h := claim_C4_theorem emptyStore "data.csv" "t" "SELECT * FROM t" "*"
    ["id", "name"] [["1", "a"], ["2", "b"]]
    (by decide) (by decide) (by decide) (by decide) (by decide) (by decide)
    (by decide)
  exact h.trans (by decide)

/-- C5: after every non-empty CSV import, the table list contains the
imported name; re-importing under the same name fully replaces the table —
the stored table is exactly the one built from the second import alone
(columns and rows of the second import, none of the first), drop-then-
create. -/
theorem claim_C5_theorem (s : Store) (fn1 fn2 tableName : String)
    (h1 : List String) (r1 : List (List String))
    (h2 : List String) (r2 : List (List String)) :
    tableName ∈ getTables (importCsvData fn1 tableName (h1 :: r1) s) ∧
    mapGet (importCsvData fn2 tableName (h2 :: r2)
        (importCsvData fn1 tableName (h1 :: r1) s)) tableName
      = some (importedTable tableName h2 r2) ∧
    (importedTable tableName h2 r2).rows = r2 := by
  refine ⟨?_, ?_, rfl⟩
  · unfold importCsvData getTables
    exact mem_keys_mapSet _ _ _
  · unfold importCsvData
    exact mapGet_mapSet _ _ _

/-- C6: a SELECT whose FROM clause names a table absent from the store fails
with the table-not-found error naming that table; a SELECT against an
existing table whose requested column list (exact, case-sensitive matching)
contains an unresolvable name fails with the column-not-found error naming
the first such column and the table; in both cases no result is returned
(the call yields an error value). -/
theorem claim_C6_theorem :
    (∀ (s : Store) (sql tn : String),
      startsSelect sql = true → fromMatchS sql = some tn →
      mapGet s tn = none →
      executeQuery s sql = .error (.tableNotFound tn)) ∧
    (∀ (s : Store) (sql tn cap c : String) (table : Table),
      startsSelect sql = true → fromMatchS sql = some tn →
      mapGet s tn = some table → selectMatchS sql = some cap →
      jsTrimS cap ≠ "*" →
      firstMissingColumn table.columns (requestedColumns (jsTrimS cap)) = some c →
      executeQuery s sql = .error (.columnNotFound c tn)) := by
  constructor
  · exact fun s sql tn hq hf ht => executeQuery_missing_table s sql tn hq hf ht
  · intro s sql tn cap c table hq hf ht hs hnstar hmiss
    rw [executeQuery_eq_select s sql hq]
    unfold executeSelect
    simp only [hf, ht, hs]
    have hsel : selectedColumnsOf (jsTrimS cap) table
        = requestedColumns (jsTrimS cap) := by
      unfold selectedColumnsOf
      rw [if_neg hnstar]
    rw [hsel, resolveColumns_error_of_missing tn table.columns _ c hmiss]

/-- C6 witness: `SELECT name FROM missing_table` on an empty store, and
`SELECT nope FROM t` on a store whose table `t` has only column `name`. -/
theorem claim_C6_witness :
    executeQuery emptyStore "SELECT name FROM missing_table"
      = .error (.tableNotFound "missing_table") ∧
    executeQuery sqeNameStore "SELECT nope FROM t"
      = .error (.columnNotFound "nope" "t") :=
  ⟨claim_C6_theorem.1 emptyStore "SELECT name FROM missing_table"
      "missing_table" (by decide) (by decide) (by decide),
   claim_C6_theorem.2 sqeNameStore "SELECT nope FROM t" "t" "nope" "nope"
      sqeNameTable (by decide) (by decide) (by decide) (by decide) (by decide)
      (by decide)⟩

theorem enumFrom_mkCol_rows (cols : List (String × String)) : ∀ n : Nat,
    (List.enumFrom n ((List.enumFrom n cols).map (fun ic =>
        ({ name := ic.2.1, type := ic.2.2,
           primaryKey := ic.1 == 0 &&
             containsSeq (jsToLowerL ic.2.1.data) "id".data } : Column)))).map
      (fun ic =>
        [Nat.repr ic.1, ic.2.name, ic.2.type, "0", "",
         if ic.2.primaryKey then "1" else "0"])
    = (List.enumFrom n cols).map (fun ic =>
        [Nat.repr ic.1, ic.2.1, ic.2.2, "0", "",
         if ic.1 == 0 && containsSeq (jsToLowerL ic.2.1.data) "id".data
         then "1" else "0"]) := by
  induction cols with
  | nil => intro n; rfl
  | cons c rest ih =>
    intro n
    simp only [List.enumFrom_cons, List.map_cons, ih (n + 1)]

/-- C7: for every table registered through `createTable`, `PRAGMA
table_info` on that table returns exactly one row per column in column
order, the fields being the position, the name, the stored (inferred) type,
the not-null flag always `0`, the default value always empty, and a
primary-key flag that is `1` exactly when the column was flagged at
creation, i.e. exactly when it is the first column and its name contains
`id` case-insensitively. -/
theorem claim_C7_theorem (s : Store) (sql tableName : String)
    (cols : List (String × String)) (data : List (List String))
    (hq : dispatchesToPragma sql = true)
    (hp : pragmaMatchS sql = some tableName) :
    executeQuery (createTable tableName cols data s) sql =
      .ok { columns := ["cid", "name", "type", "notnull", "dflt_value", "pk"],
            rows := cols.enum.map (fun ic =>
              [Nat.repr ic.1, ic.2.1, ic.2.2, "0", "",
               if ic.1 == 0 && containsSeq (jsToLowerL ic.2.1.data) "id".data
               then "1" else "0"]) } := by
  rw [executeQuery_eq_pragma _ sql hq]
  unfold executePragma
  have hget : mapGet (createTable tableName cols data s) tableName
      = some (mkCreatedTable tableName cols data) := mapGet_mapSet _ _ _
  simp only [hp, hget]
  exact congrArg Except.ok
    (congrArg (QResult.mk ["cid", "name", "type", "notnull", "dflt_value", "pk"])
      (enumFrom_mkCol_rows cols 0))

/-- C7 witness: a table created with columns `id` (first, name contains
`id`) and `age`; the pragma rows flag `id` with `1` and `age` with `0`. -/
theorem claim_C7_witness :
    executeQuery (createTable "people" [("id", "INTEGER"), ("age", "REAL")]
        [["1", "30"]] emptyStore) "PRAGMA table_info(people)"
      = .ok { columns := ["cid", "name", "type", "notnull", "dflt_value", "pk"],
              rows := [["0", "id", "INTEGER", "0", "", "1"],
                       ["1", "age", "REAL", "0", "", "0"]] } := by
  have h := claim_C7_theorem emptyStore "PRAGMA table_info(people)" "people"
    [("id", "INTEGER"), ("age", "REAL")] [["1", "30"]] (by decide) (by decide)
  exact h.trans (by decide)

/-- C8: the table store is left completely unchanged by every call to
`executeQuery` (in store-passing form every dispatch branch returns the
store it received, succeeding or failing), and an import whose input row set
is empty is a no-op: no table is created and no error is raised (both
functions are total). -/
theorem claim_C8_theorem :
    (∀ (s : Store) (sql : String), (executeQueryS s sql).1 = s) ∧
    (∀ (s : Store) (fileName tableName : String),
      importCsvData fileName tableName [] s = s) := by
  constructor
  · intro s sql
    unfold executeQueryS
    by_cases h1 : startsWithL "select".data (lowerTrim sql) <;>
      by_cases h2 : startsWithL "pragma".data (lowerTrim sql) <;>
      by_cases h3 : (containsSeq (lowerTrim sql) "show tables".data ||
        containsSeq (lowerTrim sql) "sqlite_master".data) <;>
      simp [h1, h2, h3]
  · intro s fileName tableName
    rfl

/-- C9: `PRAGMA table_info` on a table name absent from the store succeeds
with an empty result (no columns, no rows) rather than failing, unlike a
SELECT against the same missing table, which fails with the table-not-found
error. -/
theorem claim_C9_theorem :
    (∀ (s : Store) (sql tableName : String),
      dispatchesToPragma sql = true → pragmaMatchS sql = some tableName →
      mapGet s tableName = none →
      executeQuery s sql = .ok { columns := [], rows := [] }) ∧
    (∀ (s : Store) (sql tableName : String),
      startsSelect sql = true → fromMatchS sql = some tableName →
      mapGet s tableName = none →
      executeQuery s sql = .error (.tableNotFound tableName)) := by
  constructor
  · intro s sql tableName hq hp ht
    rw [executeQuery_eq_pragma s sql hq]
    unfold executePragma
    simp only [hp, ht]
  · exact fun s sql tn hq hf ht => executeQuery_missing_table s sql tn hq hf ht

/-- C9 witness: pragma and SELECT against the missing table `ghost` on the
empty store. -/
theorem claim_C9_witness :
    executeQuery emptyStore "PRAGMA table_info(ghost)"
      = .ok { columns := [], rows := [] } ∧
    executeQuery emptyStore "SELECT name FROM ghost"
      = .error (.tableNotFound "ghost") :=
  ⟨claim_C9_theorem.1 emptyStore "PRAGMA table_info(ghost)" "ghost"
      (by decide) (by decide) (by decide),
   claim_C9_theorem.2 emptyStore "SELECT name FROM ghost" "ghost"
      (by decide) (by decide) (by decide)⟩

/-- C10: in the `CSVQueryEngine` variant, a WHERE clause whose condition
text does not match the single-condition pattern is silently ignored: the
query succeeds and (absent a LIMIT clause) every row of the table is
returned unfiltered, with no error raised. -/
theorem claim_C10_theorem (s : CsvStore) (query tn wc : String)
    (table : CSVTable)
    (hq : startsWithL "select".data (lowerTrim query) = true)
    (hf : csvFromMatchS query = some tn)
    (ht : mapGet s tn = some table)
    (hw : whereMatchS query = some wc)
    (hc : conditionMatchS (jsTrimS wc) = none)
    (hl : csvLimitMatchS query = none) :
    csvExecuteQuery s query
      = .ok { columns := table.columns.map CsvColumn.name,
              rows := table.data } := by
  unfold csvExecuteQuery
  rw [if_pos hq]
  unfold csvExecuteSelect
  simp only [hf, ht, hw, applyWhereClause, hc, hl, applyLimit]

/-- C10 witness: `select * from t where foo` — the clause `foo` has no
operator, so the condition regex fails and both rows are returned. -/
theorem claim_C10_witness :
    csvExecuteQuery csvNumStore "select * from t where foo"
      = .ok { columns := ["a"], rows := [["5"], ["7"]] } := by
  have h := claim_C10_theorem csvNumStore "select * from t where foo" "t"
    "foo" csvNumTable (by decide) (by decide) (by decide) (by decide)
    (by decide) (by decide)
  exact h.trans (by decide)
